import Mathlib

/-! Verification of the `kfreiman/x` repository: the `config` package
(`config/config.go`, a configuration-loading pipeline over godotenv,
caarlos0/env, go-defaults and go-playground/validator) and the `logging`
package (`logging/logger.go`, a pretty slog handler).  The Go code is
shallowly embedded: process environment, the `.env` file and the
destination struct are explicit values, and `Load`'s pipeline is a pure
function returning the final environment, the final destination and the
returned error. -/

namespace X

/-! ### Go scalar values and struct shapes -/

/-- The field types the test configuration uses: `string`, `int`, `bool`. -/
inductive GoType where
  | str
  | int
  | bool
  deriving DecidableEq, Repr

/-- A Go scalar value. -/
inductive GoValue where
  | vstr (s : String)
  | vint (n : Int)
  | vbool (b : Bool)
  deriving DecidableEq, Repr

/-- The zero value of each Go type (`""`, `0`, `false`). -/
def zeroValue : GoType → GoValue
  | .str => .vstr ""
  | .int => .vint 0
  | .bool => .vbool false

/-- Go's `strconv.ParseInt (base 10)` as used by caarlos0/env for `int`
fields: an optional sign followed by one or more decimal digits. -/
def parseGoInt (s : String) : Option Int :=
  match s.data with
  | [] => none
  | c :: rest =>
    let signed : Bool × List Char :=
      if c = '-' then (true, rest)
      else if c = '+' then (false, rest)
      else (false, c :: rest)
    if signed.2 = [] then none
    else if signed.2.all (fun d => d.isDigit) then
      let n : Nat := signed.2.foldl (fun acc d => 10 * acc + (d.toNat - 48)) 0
      some (if signed.1 then -(n : Int) else (n : Int))
    else none

/-- Go's `strconv.ParseBool`: exactly the listed literals are accepted. -/
def parseGoBool (s : String) : Option Bool :=
  if s = "1" ∨ s = "t" ∨ s = "T" ∨ s = "true" ∨ s = "TRUE" ∨ s = "True" then some true
  else if s = "0" ∨ s = "f" ∨ s = "F" ∨ s = "false" ∨ s = "FALSE" ∨ s = "False" then some false
  else none

/-- Decoding one raw environment string at a field's declared type
(caarlos0/env's built-in parsers for string, int, bool). -/
def parseValue : GoType → String → Option GoValue
  | .str, s => some (.vstr s)
  | .int, s => (parseGoInt s).map .vint
  | .bool, s => (parseGoBool s).map .vbool

/-- Printed name of a Go type, as it appears in env's parse errors. -/
def typeName : GoType → String
  | .str => "string"
  | .int => "int"
  | .bool => "bool"

/-- One struct field's declaration: Go field name, `env` tag, type,
optional `default` tag, and whether `validate:"required"` is declared. -/
structure FieldDecl where
  name : String
  envKey : String
  ty : GoType
  defaultTag : Option String
  required : Bool
  deriving DecidableEq, Repr

/-- A struct type: its Go name and its ordered field declarations. -/
structure StructType where
  name : String
  fields : List FieldDecl
  deriving DecidableEq, Repr

/-- A destination struct's field values, positionally aligned with the
struct type's field list, all at their zero values. -/
def zeroStruct (s : StructType) : List GoValue :=
  s.fields.map (fun f => zeroValue f.ty)

/-! ### The process environment and the `.env` file -/

/-- The process environment: an association list, first match wins. -/
abbrev Env := List (String × String)

/-- `os.LookupEnv`. -/
def envGet (e : Env) (k : String) : Option String :=
  (e.find? (fun p => p.1 = k)).map (fun p => p.2)

/-- The state of the `.env` file in the working directory: absent, or
present with either a parse/read error or its parsed entries. -/
inductive EnvFile where
  | absent
  | present (result : Except String (List (String × String)))

/-- `godotenv.Load()` on the default file `.env`: an absent file is a
read error (the `os.Open` message), a malformed file returns the parser's
error, and a good file injects its entries without overriding variables
already present. -/
def godotenvLoad (fs : EnvFile) (env : Env) : Except String Env :=
  match fs with
  | .absent => .error "open .env: no such file or directory"
  | .present (.error msg) => .error msg
  | .present (.ok entries) => .ok (env ++ entries)

/-! ### The options surface (`config.go` lines 10-34) -/

/-- `configOptions` from `config.go`: the transient options record. -/
structure configOptions where
  pref : String
  skipEnv : Bool
  skipValid : Bool
  deriving DecidableEq, Repr

/-- The three public option constructors (`WithPrefix`, `SkipEnvFile`,
`SkipValidation`), as the closures they return. -/
inductive ConfigOption where
  | withPref (p : String)
  | skipEnvFile
  | skipValidation
  deriving DecidableEq, Repr

/-- Applying one option closure to the options record. -/
def applyOpt (o : configOptions) : ConfigOption → configOptions
  | .withPref p => { o with pref := p }
  | .skipEnvFile => { o with skipEnv := true }
  | .skipValidation => { o with skipValid := true }

/-- `Load`'s option loop: every option applied in call order to a freshly
zeroed record (`config.go` lines 37-40). -/
def applyOptions (opts : List ConfigOption) : configOptions :=
  opts.foldl applyOpt { pref := "", skipEnv := false, skipValid := false }

/-! ### The decoder, default injector and validator collaborators -/

/-- One field the decoder failed on: its Go name, the raw string, its type. -/
structure DecodeFailure where
  fieldName : String
  raw : String
  ty : GoType
  deriving DecidableEq, Repr

/-- `env.ParseWithOptions` on one field: the (possibly prefixed)
environment variable is looked up; absent leaves the current value, a
present value is parsed, and a parse failure keeps the current value and
records an error. -/
def decodeField (pfx : String) (env : Env) (f : FieldDecl) (cur : GoValue) :
    GoValue × Option DecodeFailure :=
  match envGet env (pfx ++ f.envKey) with
  | none => (cur, none)
  | some raw =>
    match parseValue f.ty raw with
    | some v => (v, none)
    | none => (cur, some ⟨f.name, raw, f.ty⟩)

/-- The decoder over the whole field list, collecting every failure
(caarlos0/env aggregates all field errors). -/
def decodeFields (pfx : String) (env : Env) :
    List (FieldDecl × GoValue) → List GoValue × List DecodeFailure
  | [] => ([], [])
  | (f, c) :: rest =>
    let r := decodeField pfx env f c
    let rs := decodeFields pfx env rest
    (r.1 :: rs.1, match r.2 with | none => rs.2 | some x => x :: rs.2)

/-- go-defaults on one field: a declared default is parsed and written
only when the field currently holds its type's zero value (an unparsable
default literal writes the zero value, as go-defaults ignores the
conversion error). -/
def setDefaultField (f : FieldDecl) (v : GoValue) : GoValue :=
  match f.defaultTag with
  | none => v
  | some d => if v = zeroValue f.ty then (parseValue f.ty d).getD (zeroValue f.ty) else v

/-- `defaults.SetDefaults` over the whole struct.  Its Go signature
returns nothing: the step has no error value. -/
def setDefaults (s : StructType) (v : List GoValue) : List GoValue :=
  (s.fields.zip v).map (fun p => setDefaultField p.1 p.2)

/-- go-playground/validator with the `required` tag: the names of every
field that is declared required and holds its type's zero value. -/
def validationFailures (s : StructType) (v : List GoValue) : List String :=
  ((s.fields.zip v).filter
    (fun p => p.1.required && decide (p.2 = zeroValue p.1.ty))).map (fun p => p.1.name)

/-! ### Error taxonomy and rendered messages -/

/-- The spec's error taxonomy for `Load`.  `shape` is the decoder
library's not-a-struct-pointer error; `defaultErr` is the spec's
`DefaultError` kind, listed here so that theorems can speak about it. -/
inductive LoadError where
  | fileLoad (msg : String)
  | shape
  | decode (failures : List DecodeFailure)
  | validation (structName : String) (failures : List String)
  | defaultErr (msg : String)
  deriving DecidableEq, Repr

/-- caarlos0/env's message when the destination is nil or not a pointer
to a struct. -/
def shapeMsg : String := "env: expected a pointer to a Struct"

/-- One aggregated env parse error, e.g.
`parse error on field "Port" of type "int"`. -/
def decodeFailureMsg (f : DecodeFailure) : String :=
  "parse error on field \"" ++ f.fieldName ++ "\" of type \"" ++ typeName f.ty ++ "\""

/-- Joining rendered parts with a separator (env joins with `"; "`,
validator with a newline). -/
def joinSep (sep : String) : List String → String
  | [] => ""
  | [x] => x
  | x :: y :: rest => x ++ sep ++ joinSep sep (y :: rest)

/-- One validator violation line, e.g.
`Key: 'TestConfig.Host' Error:Field validation for 'Host' failed on the 'required' tag`. -/
def validationFieldMsg (structName fieldName : String) : String :=
  "Key: '" ++ structName ++ "." ++ fieldName ++ "' Error:Field validation for '" ++
    fieldName ++ "' failed on the 'required' tag"

/-- The rendered `err.Error()` text for each error kind. -/
def errMessage : LoadError → String
  | .fileLoad msg => msg
  | .shape => shapeMsg
  | .decode fs => "env: " ++ joinSep "; " (fs.map decodeFailureMsg)
  | .validation sn fs => joinSep "\n" (fs.map (validationFieldMsg sn))
  | .defaultErr msg => msg

/-- `s` contains `pat` as a substring. -/
def strHas (s pat : String) : Prop := pat.data <:+: s.data

instance (s pat : String) : Decidable (strHas s pat) :=
  List.decidableInfix pat.data s.data

/-! ### The destination and `Load` itself -/

/-- The `dest interface{}` argument: Go `nil`, a non-pointer struct
value, or a pointer to a struct with its current field values. -/
inductive Dest where
  | goNil
  | nonPtr (vals : List GoValue)
  | ptr (s : StructType) (vals : List GoValue)
  deriving DecidableEq, Repr

/-- What a `Load` call leaves behind: the process environment, the
destination, and the returned error (`none` = `nil`). -/
structure LoadResult where
  env : Env
  dest : Dest
  err : Option LoadError
  deriving DecidableEq, Repr

/-- Step 1 of `Load` (`config.go` lines 42-47): unless `skipEnv` is set,
`godotenv.Load()` runs and its error is returned verbatim. -/
def fileStep (o : configOptions) (fs : EnvFile) (env : Env) : Except String Env :=
  if o.skipEnv then .ok env else godotenvLoad fs env

/-- `config.Load` (`config.go` lines 36-67): options are folded over a
zeroed record; the `.env` step runs unless skipped and any error aborts;
`env.ParseWithOptions` decodes (a nil or non-pointer destination is its
not-a-struct-pointer error, a parse failure aborts before defaults);
`defaults.SetDefaults` fills zero-valued fields; unless skipped,
`validator.Struct` runs last and its aggregate error is returned. -/
def load (fs : EnvFile) (env : Env) (dest : Dest) (opts : List ConfigOption) : LoadResult :=
  let o := applyOptions opts
  match fileStep o fs env with
  | .error msg => ⟨env, dest, some (.fileLoad msg)⟩
  | .ok env1 =>
    match dest with
    | .goNil => ⟨env1, .goNil, some .shape⟩
    | .nonPtr v => ⟨env1, .nonPtr v, some .shape⟩
    | .ptr s v =>
      match decodeFields o.pref env1 (s.fields.zip v) with
      | (v1, x :: xs) => ⟨env1, .ptr s v1, some (.decode (x :: xs))⟩
      | (v1, []) =>
        let v2 := setDefaults s v1
        if o.skipValid then ⟨env1, .ptr s v2, none⟩
        else
          match validationFailures s v2 with
          | [] => ⟨env1, .ptr s v2, none⟩
          | n :: ns => ⟨env1, .ptr s v2, some (.validation s.name (n :: ns))⟩

/-- The struct the repository's tests load (`TestConfig`). -/
def TestConfig : StructType :=
  { name := "TestConfig"
  , fields :=
    [ { name := "Host", envKey := "HOST", ty := .str, defaultTag := none, required := true }
    , { name := "Port", envKey := "PORT", ty := .int, defaultTag := some "8080", required := false }
    , { name := "Debug", envKey := "DEBUG", ty := .bool, defaultTag := some "false", required := false }
    , { name := "Optional", envKey := "OPTIONAL", ty := .str, defaultTag := none, required := false } ] }

/-- The field value the spec's precedence invariant predicts, amended to
what the injector actually does: the parsed environment value wins unless
it equals the type's zero value while a default is declared, in which
case the default's parsed value replaces it; with no environment value a
declared default applies, else the zero value stays. -/
def resolveSpec (pfx : String) (env : Env) (f : FieldDecl) : GoValue :=
  match envGet env (pfx ++ f.envKey) with
  | some raw =>
    let v := (parseValue f.ty raw).getD (zeroValue f.ty)
    if v = zeroValue f.ty then
      match f.defaultTag with
      | some d => (parseValue f.ty d).getD (zeroValue f.ty)
      | none => v
    else v
  | none =>
    match f.defaultTag with
    | some d => (parseValue f.ty d).getD (zeroValue f.ty)
    | none => zeroValue f.ty

/-! ### Substring lemmas -/

theorem strHas_self (s : String) : strHas s s := ⟨[], [], by simp⟩

theorem strHas_append_left (a b pat : String) (h : strHas b pat) : strHas (a ++ b) pat := by
  obtain ⟨u, w, huw⟩ := h
  exact ⟨a.data ++ u, w, by rw [String.data_append, ← huw]; simp⟩

theorem strHas_append_right (a b pat : String) (h : strHas a pat) : strHas (a ++ b) pat := by
  obtain ⟨u, w, huw⟩ := h
  exact ⟨u, w ++ b.data, by rw [String.data_append, ← huw]; simp⟩

theorem strHas_trans (m b pat : String) (h1 : strHas m b) (h2 : strHas b pat) :
    strHas m pat := by
  obtain ⟨u, w, huw⟩ := h1
  obtain ⟨u2, w2, huw2⟩ := h2
  exact ⟨u ++ u2, w2 ++ w, by rw [← huw, ← huw2]; simp⟩

theorem strHas_joinSep (sep : String) :
    ∀ (l : List String) (x : String), x ∈ l → strHas (joinSep sep l) x
  | [y], x, hx => by
    rcases List.mem_cons.mp hx with rfl | h
    · exact strHas_self x
    · cases h
  | y :: z :: rest, x, hx => by
    rcases List.mem_cons.mp hx with rfl | h
    · show strHas (x ++ sep ++ joinSep sep (z :: rest)) x
      exact strHas_append_right _ _ _ (strHas_append_right _ _ _ (strHas_self x))
    · show strHas (y ++ sep ++ joinSep sep (z :: rest)) x
      exact strHas_append_left _ _ _ (strHas_joinSep sep (z :: rest) x h)

/-- Every aggregated validator line contains the word `validation`. -/
theorem strHas_validationFieldMsg (sn fn : String) :
    strHas (validationFieldMsg sn fn) "validation" := by
  show strHas ("Key: '" ++ sn ++ "." ++ fn ++ "' Error:Field validation for '" ++ fn ++
    "' failed on the 'required' tag") "validation"
  apply strHas_append_right
  apply strHas_append_right
  apply strHas_append_left
  decide

/-- Every aggregated env parse error contains
`parse error on field "<name>"` for its field. -/
theorem strHas_decodeFailureMsg (df : DecodeFailure) :
    strHas (decodeFailureMsg df) ("parse error on field \"" ++ df.fieldName ++ "\"") := by
  show strHas ("parse error on field \"" ++ df.fieldName ++ "\" of type \"" ++
    typeName df.ty ++ "\"") ("parse error on field \"" ++ df.fieldName ++ "\"")
  have hsplit : ("\" of type \"" : String) = "\"" ++ " of type \"" := by decide
  rw [hsplit]
  apply strHas_append_right
  apply strHas_append_right
  rw [← String.append_assoc]
  exact strHas_append_right _ _ _ (strHas_self _)

/-! ### Options-record lemmas -/

theorem foldl_applyOpt_skipEnv :
    ∀ (opts : List ConfigOption) (o : configOptions),
      ((opts.foldl applyOpt o).skipEnv = true ↔
        (o.skipEnv = true ∨ ConfigOption.skipEnvFile ∈ opts)) := by
  intro opts
  induction opts with
  | nil => intro o; simp
  | cons c l ih =>
    intro o
    rw [List.foldl_cons, ih]
    cases c <;> simp [applyOpt]

theorem foldl_applyOpt_skipValid :
    ∀ (opts : List ConfigOption) (o : configOptions),
      ((opts.foldl applyOpt o).skipValid = true ↔
        (o.skipValid = true ∨ ConfigOption.skipValidation ∈ opts)) := by
  intro opts
  induction opts with
  | nil => intro o; simp
  | cons c l ih =>
    intro o
    rw [List.foldl_cons, ih]
    cases c <;> simp [applyOpt]

theorem applyOpt_idem (o : configOptions) (c : ConfigOption) :
    applyOpt (applyOpt o c) c = applyOpt o c := by
  cases c <;> rfl

/-! ### Decoder lemmas -/

/-- A field whose present environment value fails to parse contributes its
failure record to the decoder's aggregated failure list. -/
theorem decodeFields_failure_mem (pfx : String) (env : Env) :
    ∀ (zl : List (FieldDecl × GoValue)) (f : FieldDecl) (c : GoValue), (f, c) ∈ zl →
      ∀ raw, envGet env (pfx ++ f.envKey) = some raw → parseValue f.ty raw = none →
        (⟨f.name, raw, f.ty⟩ : DecodeFailure) ∈ (decodeFields pfx env zl).2 := by
  intro zl
  induction zl with
  | nil => intro f c h; cases h
  | cons p rest ih =>
    intro f c hmem raw henv hparse
    obtain ⟨g, d⟩ := p
    rcases List.mem_cons.mp hmem with heq | htail
    · injection heq with h1 h2
      subst h1; subst h2
      have hfield : decodeField pfx env f c = (c, some ⟨f.name, raw, f.ty⟩) := by
        simp [decodeField, henv, hparse]
      simp [decodeFields, hfield]
    · have hrest := ih f c htail raw henv hparse
      simp only [decodeFields]
      cases hd : (decodeField pfx env g d).2 with
      | none => simp only [hd]; exact hrest
      | some x => simp only [hd]; exact List.mem_cons_of_mem x hrest

/-- On a zero-initialised destination, a decode pass with no failure
followed by default injection resolves every field exactly as
`resolveSpec` predicts. -/
theorem setDefault_decodeField_resolve (pfx : String) (env : Env) (f : FieldDecl)
    (h : (decodeField pfx env f (zeroValue f.ty)).2 = none) :
    setDefaultField f (decodeField pfx env f (zeroValue f.ty)).1 = resolveSpec pfx env f := by
  cases henv : envGet env (pfx ++ f.envKey) with
  | none =>
    simp only [decodeField, resolveSpec, setDefaultField, henv]
    cases f.defaultTag <;> simp
  | some raw =>
    cases hp : parseValue f.ty raw with
    | none => simp [decodeField, henv, hp] at h
    | some pv =>
      simp only [decodeField, resolveSpec, setDefaultField, henv, hp, Option.getD_some]
      cases f.defaultTag with
      | none => by_cases hz : pv = zeroValue f.ty <;> simp [hz]
      | some d => by_cases hz : pv = zeroValue f.ty <;> simp [hz]

theorem setDefaults_decode_zero (pfx : String) (env : Env) :
    ∀ (fl : List FieldDecl),
      (decodeFields pfx env (fl.zip (fl.map (fun f => zeroValue f.ty)))).2 = [] →
      (fl.zip (decodeFields pfx env (fl.zip (fl.map (fun f => zeroValue f.ty)))).1).map
          (fun p => setDefaultField p.1 p.2)
        = fl.map (resolveSpec pfx env) := by
  intro fl
  induction fl with
  | nil => intro _; rfl
  | cons f rest ih =>
    intro h
    simp only [List.map_cons, List.zip_cons_cons, decodeFields] at h ⊢
    cases hd : (decodeField pfx env f (zeroValue f.ty)).2 with
    | some x => rw [hd] at h; simp at h
    | none =>
      rw [hd] at h
      have h2 : (decodeFields pfx env (rest.zip (List.map (fun g => zeroValue g.ty) rest))).2
          = [] := h
      rw [setDefault_decodeField_resolve pfx env f hd]
      exact congrArg (List.cons (resolveSpec pfx env f)) (ih h2)

/-! ### Structural lemmas about the `Load` pipeline -/

theorem load_file_error (fs : EnvFile) (env : Env) (dest : Dest) (opts : List ConfigOption)
    (msg : String) (h : fileStep (applyOptions opts) fs env = .error msg) :
    load fs env dest opts = ⟨env, dest, some (.fileLoad msg)⟩ := by
  simp [load, h]

theorem load_shape_goNil (fs : EnvFile) (env env1 : Env) (opts : List ConfigOption)
    (h : fileStep (applyOptions opts) fs env = .ok env1) :
    load fs env .goNil opts = ⟨env1, .goNil, some .shape⟩ := by
  simp [load, h]

theorem load_shape_nonPtr (fs : EnvFile) (env env1 : Env) (v : List GoValue)
    (opts : List ConfigOption) (h : fileStep (applyOptions opts) fs env = .ok env1) :
    load fs env (.nonPtr v) opts = ⟨env1, .nonPtr v, some .shape⟩ := by
  simp [load, h]

theorem load_decode_fail (fs : EnvFile) (env env1 : Env) (s : StructType)
    (v v1 : List GoValue) (opts : List ConfigOption) (x : DecodeFailure) (xs : List DecodeFailure)
    (h1 : fileStep (applyOptions opts) fs env = .ok env1)
    (h2 : decodeFields (applyOptions opts).pref env1 (s.fields.zip v) = (v1, x :: xs)) :
    load fs env (.ptr s v) opts = ⟨env1, .ptr s v1, some (.decode (x :: xs))⟩ := by
  simp [load, h1, h2]

theorem load_decode_ok_frame (fs : EnvFile) (env env1 : Env) (s : StructType)
    (v v1 : List GoValue) (opts : List ConfigOption)
    (h1 : fileStep (applyOptions opts) fs env = .ok env1)
    (h2 : decodeFields (applyOptions opts).pref env1 (s.fields.zip v) = (v1, [])) :
    (load fs env (.ptr s v) opts).dest = .ptr s (setDefaults s v1) ∧
    (load fs env (.ptr s v) opts).env = env1 := by
  simp only [load, h1, h2]
  by_cases hv : (applyOptions opts).skipValid
  · simp [hv]
  · simp only [hv, Bool.false_eq_true, if_false]
    cases validationFailures s (setDefaults s v1) <;> simp

theorem load_valid_fail (fs : EnvFile) (env env1 : Env) (s : StructType)
    (v v1 : List GoValue) (opts : List ConfigOption) (n : String) (ns : List String)
    (h1 : fileStep (applyOptions opts) fs env = .ok env1)
    (h2 : decodeFields (applyOptions opts).pref env1 (s.fields.zip v) = (v1, []))
    (hsv : (applyOptions opts).skipValid = false)
    (h3 : validationFailures s (setDefaults s v1) = n :: ns) :
    load fs env (.ptr s v) opts =
      ⟨env1, .ptr s (setDefaults s v1), some (.validation s.name (n :: ns))⟩ := by
  simp [load, h1, h2, hsv, h3]

theorem load_valid_ok (fs : EnvFile) (env env1 : Env) (s : StructType)
    (v v1 : List GoValue) (opts : List ConfigOption)
    (h1 : fileStep (applyOptions opts) fs env = .ok env1)
    (h2 : decodeFields (applyOptions opts).pref env1 (s.fields.zip v) = (v1, []))
    (hsv : (applyOptions opts).skipValid = false)
    (h3 : validationFailures s (setDefaults s v1) = []) :
    load fs env (.ptr s v) opts = ⟨env1, .ptr s (setDefaults s v1), none⟩ := by
  simp [load, h1, h2, hsv, h3]

theorem load_skip_valid (fs : EnvFile) (env env1 : Env) (s : StructType)
    (v v1 : List GoValue) (opts : List ConfigOption)
    (h1 : fileStep (applyOptions opts) fs env = .ok env1)
    (h2 : decodeFields (applyOptions opts).pref env1 (s.fields.zip v) = (v1, []))
    (hsv : (applyOptions opts).skipValid = true) :
    load fs env (.ptr s v) opts = ⟨env1, .ptr s (setDefaults s v1), none⟩ := by
  simp [load, h1, h2, hsv]

/-! ### C7 — options record: call order, last write wins, idempotence -/

/-- C7: `Load` folds the supplied options in call order over a freshly
zeroed options record; a second `WithPrefix` leaves only its own value in
effect; applying any option twice equals applying it once; and the
boolean flags hold exactly when the corresponding option occurs. -/
theorem C7_options_record (opts : List ConfigOption) (p q : String) (c : ConfigOption) :
    applyOptions opts = opts.foldl applyOpt { pref := "", skipEnv := false, skipValid := false } ∧
    (applyOptions (opts ++ [.withPref p, .withPref q])).pref = q ∧
    applyOptions (opts ++ [c, c]) = applyOptions (opts ++ [c]) ∧
    ((applyOptions opts).skipEnv = true ↔ ConfigOption.skipEnvFile ∈ opts) ∧
    ((applyOptions opts).skipValid = true ↔ ConfigOption.skipValidation ∈ opts) := by
  refine ⟨rfl, ?_, ?_, ?_, ?_⟩
  · unfold applyOptions
    rw [List.foldl_append]
    rfl
  · unfold applyOptions
    rw [List.foldl_append, List.foldl_append]
    exact applyOpt_idem _ c
  · rw [applyOptions, foldl_applyOpt_skipEnv]
    simp
  · rw [applyOptions, foldl_applyOpt_skipValid]
    simp

/-! ### C6 — SkipValidation bypasses the validator -/

/-- C6: when `SkipValidation()` is among the options and the file and
decode steps succeed, `Load` returns `nil` — the validator is never
consulted, so a missing required field's environment value cannot fail
the call. -/
theorem C6_skip_validation (fs : EnvFile) (env env1 : Env) (s : StructType)
    (v v1 : List GoValue) (opts : List ConfigOption)
    (hmem : ConfigOption.skipValidation ∈ opts)
    (h1 : fileStep (applyOptions opts) fs env = .ok env1)
    (h2 : decodeFields (applyOptions opts).pref env1 (s.fields.zip v) = (v1, [])) :
    (load fs env (.ptr s v) opts).err = none := by
  have hsv : (applyOptions opts).skipValid = true := by
    rw [applyOptions, foldl_applyOpt_skipValid]
    exact Or.inr hmem
  rw [load_skip_valid fs env env1 s v v1 opts h1 h2 hsv]

/-- C6 witness: `TestConfig` with no environment variables (`Host`
required but absent) and both skip options still loads with a `nil`
error, as the repository's "skip validation" test shows. -/
theorem C6_witness :
    (load .absent [] (.ptr TestConfig (zeroStruct TestConfig))
      [.skipEnvFile, .skipValidation]).err = none :=
  C6_skip_validation .absent [] [] TestConfig (zeroStruct TestConfig) (zeroStruct TestConfig)
    [.skipEnvFile, .skipValidation] (by decide) rfl rfl

/-! ### C2 — a missing `.env` file is fatal, not a logged diagnostic -/

/-- C2 counterexample: with the env-file step not skipped and the `.env`
file absent, `Load` returns the file loader's error — it does not log
and proceed, so the decode step never runs and the destination is left
untouched. -/
theorem C2_counterexample :
    (load .absent [] (.ptr TestConfig (zeroStruct TestConfig)) []).err
        = some (.fileLoad "open .env: no such file or directory") ∧
    (load .absent [] (.ptr TestConfig (zeroStruct TestConfig)) []).dest
        = .ptr TestConfig (zeroStruct TestConfig) := by
  constructor <;> rfl

/-- C2 amended: when `skipEnvFile` is not in effect and the `.env` file
is absent, `godotenv.Load`'s error (whose text names `.env`) is returned
verbatim and the pipeline aborts before decoding, leaving environment and
destination unchanged; absence is fatal, exactly like a
present-but-unreadable file. -/
theorem C2_absent_file_fatal (fs : EnvFile) (env : Env) (dest : Dest)
    (opts : List ConfigOption)
    (hskip : (applyOptions opts).skipEnv = false) (habs : fs = .absent) :
    load fs env dest opts
        = ⟨env, dest, some (.fileLoad "open .env: no such file or directory")⟩ ∧
    strHas "open .env: no such file or directory" ".env" := by
  constructor
  · apply load_file_error
    rw [fileStep, hskip, habs]
    rfl
  · decide

/-- C2 witness: the amended behaviour at the concrete input of the
repository's "missing env file" test. -/
theorem C2_witness :
    load .absent [] (.ptr TestConfig (zeroStruct TestConfig)) []
        = ⟨[], .ptr TestConfig (zeroStruct TestConfig),
            some (.fileLoad "open .env: no such file or directory")⟩ ∧
    strHas "open .env: no such file or directory" ".env" :=
  C2_absent_file_fatal .absent [] (.ptr TestConfig (zeroStruct TestConfig)) [] rfl rfl

/-! ### C3 — shape errors come from the decode step, not before Step 1 -/

/-- C3 counterexample: `Load(nil)` with the env-file step not skipped and
the `.env` file absent returns the file loader's error, not a
`ShapeError` — the file step runs (and here aborts) before any shape
check, so the shape error is not produced immediately with no steps
executed. -/
theorem C3_counterexample :
    (load .absent [] .goNil []).err = some (.fileLoad "open .env: no such file or directory") ∧
    (load .absent [] .goNil []).err ≠ some LoadError.shape := by
  constructor
  · rfl
  · decide

/-- C3 amended: a nil or non-pointer destination produces the decoder
library's error `env: expected a pointer to a Struct` (whose text
contains "expected a pointer"), but only once the env-file step has been
skipped or has succeeded: the shape check is part of the decode step, so
a file-load failure preempts it. -/
theorem C3_shape_error (fs : EnvFile) (env env1 : Env) (v : List GoValue)
    (opts : List ConfigOption)
    (h1 : fileStep (applyOptions opts) fs env = .ok env1) :
    (load fs env .goNil opts).err = some .shape ∧
    (load fs env (.nonPtr v) opts).err = some .shape ∧
    strHas (errMessage .shape) "expected a pointer" := by
  refine ⟨?_, ?_, by decide⟩
  · rw [load_shape_goNil fs env env1 opts h1]
  · rw [load_shape_nonPtr fs env env1 v opts h1]

/-- C3 witness: the amended behaviour at the concrete inputs of the
repository's nil- and non-pointer-destination tests (`SkipEnvFile()`
applied). -/
theorem C3_witness :
    (load .absent [] .goNil [.skipEnvFile]).err = some LoadError.shape ∧
    (load .absent [] (.nonPtr (zeroStruct TestConfig)) [.skipEnvFile]).err
        = some LoadError.shape ∧
    strHas (errMessage .shape) "expected a pointer" :=
  C3_shape_error .absent [] [] (zeroStruct TestConfig) [.skipEnvFile] rfl

/-! ### C1 — decoding precedence on a zero-initialised destination -/

/-- C1 counterexample: `PORT=0` with declared default `"8080"`: the load
succeeds, yet the destination's `Port` holds `8080`, not the environment
value `0` — default injection cannot distinguish a decoded zero from an
untouched zero, so the environment value does not stand when it parses to
the type's zero value. -/
theorem C1_counterexample :
    (load .absent [("HOST", "localhost"), ("PORT", "0")]
        (.ptr TestConfig (zeroStruct TestConfig)) [.skipEnvFile]).err = none ∧
    (load .absent [("HOST", "localhost"), ("PORT", "0")]
        (.ptr TestConfig (zeroStruct TestConfig)) [.skipEnvFile]).dest
      = .ptr TestConfig [.vstr "localhost", .vint 8080, .vbool false, .vstr ""] ∧
    GoValue.vint 8080 ≠ GoValue.vint 0 :=
  ⟨rfl, rfl, by decide⟩

/-- C1 amended: after a successful `Load` on a zero-initialised
destination every field resolves per `resolveSpec`: the parsed
environment value wins, except that an environment value parsing to the
type's zero value is overwritten by a declared default; without an
environment value a declared default applies, else the zero value
stays. -/
theorem C1_precedence (fs : EnvFile) (env env1 : Env) (s : StructType)
    (opts : List ConfigOption)
    (h1 : fileStep (applyOptions opts) fs env = .ok env1)
    (hok : (load fs env (.ptr s (zeroStruct s)) opts).err = none) :
    (load fs env (.ptr s (zeroStruct s)) opts).dest
      = .ptr s (s.fields.map (resolveSpec (applyOptions opts).pref env1)) := by
  rcases hd : decodeFields (applyOptions opts).pref env1 (s.fields.zip (zeroStruct s))
    with ⟨v1, fl⟩
  cases fl with
  | cons x xs =>
    rw [load_decode_fail fs env env1 s (zeroStruct s) v1 opts x xs h1 hd] at hok
    simp at hok
  | nil =>
    have hframe := load_decode_ok_frame fs env env1 s (zeroStruct s) v1 opts h1 hd
    rw [hframe.1]
    have hz : (decodeFields (applyOptions opts).pref env1
        (s.fields.zip (List.map (fun f => zeroValue f.ty) s.fields))).2 = [] := by
      rw [show List.map (fun f => zeroValue f.ty) s.fields = zeroStruct s from rfl, hd]
    have hres := setDefaults_decode_zero (applyOptions opts).pref env1 s.fields hz
    congr 1
    rw [setDefaults]
    rw [show v1 = (decodeFields (applyOptions opts).pref env1
      (s.fields.zip (zeroStruct s))).1 from by rw [hd]]
    exact hres

/-- C1 witness: a successful load of `TestConfig` with `HOST=localhost`
and `PORT=0` resolves the fields exactly as `resolveSpec` predicts. -/
theorem C1_witness :
    (load .absent [("HOST", "localhost"), ("PORT", "0")]
        (.ptr TestConfig (zeroStruct TestConfig)) [.skipEnvFile]).dest
      = .ptr TestConfig (TestConfig.fields.map
          (resolveSpec (applyOptions [.skipEnvFile]).pref
            [("HOST", "localhost"), ("PORT", "0")])) :=
  C1_precedence .absent [("HOST", "localhost"), ("PORT", "0")]
    [("HOST", "localhost"), ("PORT", "0")] TestConfig [.skipEnvFile] rfl rfl

/-! ### C4 — an unparsable environment value aborts before defaults -/

/-- C4: a field whose environment value is present but unparsable makes
`Load` return env's aggregated decode error: the failure list contains
that field, the rendered message contains
`parse error on field "<name>"`, and the returned destination is exactly
the decoder's output — the default-injection step never ran. -/
theorem C4_decode_error (fs : EnvFile) (env env1 : Env) (s : StructType)
    (v : List GoValue) (opts : List ConfigOption) (f : FieldDecl) (c : GoValue) (raw : String)
    (h1 : fileStep (applyOptions opts) fs env = .ok env1)
    (hmem : (f, c) ∈ s.fields.zip v)
    (henv : envGet env1 ((applyOptions opts).pref ++ f.envKey) = some raw)
    (hparse : parseValue f.ty raw = none) :
    ∃ fails : List DecodeFailure,
      (load fs env (.ptr s v) opts).err = some (.decode fails) ∧
      (⟨f.name, raw, f.ty⟩ : DecodeFailure) ∈ fails ∧
      strHas (errMessage (.decode fails)) ("parse error on field \"" ++ f.name ++ "\"") ∧
      (load fs env (.ptr s v) opts).dest
        = .ptr s (decodeFields (applyOptions opts).pref env1 (s.fields.zip v)).1 := by
  have hfm := decodeFields_failure_mem (applyOptions opts).pref env1
    (s.fields.zip v) f c hmem raw henv hparse
  rcases hd : decodeFields (applyOptions opts).pref env1 (s.fields.zip v) with ⟨v1, fl⟩
  rw [hd] at hfm
  cases fl with
  | nil => cases hfm
  | cons x xs =>
    refine ⟨x :: xs, ?_, hfm, ?_, ?_⟩
    · rw [load_decode_fail fs env env1 s v v1 opts x xs h1 hd]
    · have h1m : decodeFailureMsg ⟨f.name, raw, f.ty⟩ ∈ (x :: xs).map decodeFailureMsg :=
        List.mem_map_of_mem decodeFailureMsg hfm
      have h2m := strHas_joinSep "; " ((x :: xs).map decodeFailureMsg) _ h1m
      exact strHas_trans _ _ _ (strHas_append_left "env: " _ _ h2m)
        (strHas_decodeFailureMsg ⟨f.name, raw, f.ty⟩)
    · rw [load_decode_fail fs env env1 s v v1 opts x xs h1 hd]

/-- C4 witness: `PORT=invalid` on `TestConfig` (the repository's "invalid
port type" test): the decode error names `Port` and `Port` stays `0`
(the default `8080` was never injected). -/
theorem C4_witness :
    ∃ fails : List DecodeFailure,
      (load .absent [("PORT", "invalid")]
          (.ptr TestConfig (zeroStruct TestConfig)) [.skipEnvFile]).err
        = some (.decode fails) ∧
      (⟨"Port", "invalid", .int⟩ : DecodeFailure) ∈ fails ∧
      strHas (errMessage (.decode fails)) ("parse error on field \"" ++ "Port" ++ "\"") ∧
      (load .absent [("PORT", "invalid")]
          (.ptr TestConfig (zeroStruct TestConfig)) [.skipEnvFile]).dest
        = .ptr TestConfig (decodeFields "" [("PORT", "invalid")]
            (TestConfig.fields.zip (zeroStruct TestConfig))).1 :=
  C4_decode_error .absent [("PORT", "invalid")] [("PORT", "invalid")] TestConfig
    (zeroStruct TestConfig) [.skipEnvFile]
    { name := "Port", envKey := "PORT", ty := .int, defaultTag := some "8080",
      required := false }
    (GoValue.vint 0) "invalid" rfl (by decide) rfl rfl

/-! ### C5 — validation failures abort with an aggregate error -/

/-- C5: with validation not skipped and at least one required field at
its zero value after decoding and default injection, `Load` returns the
validator's aggregate error; its rendered message contains "validation"
and contains the violation line of every failed field, not just the
first. -/
theorem C5_validation_error (fs : EnvFile) (env env1 : Env) (s : StructType)
    (v v1 : List GoValue) (opts : List ConfigOption) (n : String) (ns : List String)
    (hsv : (applyOptions opts).skipValid = false)
    (h1 : fileStep (applyOptions opts) fs env = .ok env1)
    (h2 : decodeFields (applyOptions opts).pref env1 (s.fields.zip v) = (v1, []))
    (h3 : validationFailures s (setDefaults s v1) = n :: ns) :
    (load fs env (.ptr s v) opts).err = some (.validation s.name (n :: ns)) ∧
    strHas (errMessage (.validation s.name (n :: ns))) "validation" ∧
    ∀ fn ∈ n :: ns,
      strHas (errMessage (.validation s.name (n :: ns))) (validationFieldMsg s.name fn) := by
  refine ⟨?_, ?_, ?_⟩
  · rw [load_valid_fail fs env env1 s v v1 opts n ns h1 h2 hsv h3]
  · have hmem : validationFieldMsg s.name n ∈ (n :: ns).map (validationFieldMsg s.name) :=
      List.mem_map_of_mem _ (List.mem_cons_self n ns)
    exact strHas_trans _ _ _ (strHas_joinSep "\n" _ _ hmem) (strHas_validationFieldMsg s.name n)
  · intro fn hfn
    exact strHas_joinSep "\n" _ _ (List.mem_map_of_mem _ hfn)

/-- C5 witness: `TestConfig` with no environment variables fails
validation on `Host` and the message contains "validation" (the
repository's "validation failure" test). -/
theorem C5_witness :
    (load .absent [] (.ptr TestConfig (zeroStruct TestConfig)) [.skipEnvFile]).err
        = some (.validation "TestConfig" ["Host"]) ∧
    strHas (errMessage (.validation "TestConfig" ["Host"])) "validation" ∧
    ∀ fn ∈ ["Host"],
      strHas (errMessage (.validation "TestConfig" ["Host"]))
        (validationFieldMsg "TestConfig" fn) :=
  C5_validation_error .absent [] [] TestConfig (zeroStruct TestConfig)
    (zeroStruct TestConfig) [.skipEnvFile] "Host" [] rfl rfl rfl rfl

/-! ### C8 — no error path belongs to the default injector -/

/-- Whether an error is the spec's `DefaultError` kind. -/
def isDefaultErr : LoadError → Bool
  | .defaultErr _ => true
  | _ => false

/-- Exhaustive case analysis of `Load`'s returned error: it is `nil`, or
the file loader's, the decoder's (shape or parse), or the validator's
error.  No branch of the pipeline produces a `DefaultError`:
`defaults.SetDefaults` returns nothing. -/
theorem load_err_kinds (fs : EnvFile) (env : Env) (dest : Dest) (opts : List ConfigOption) :
    (((load fs env dest opts).err.map isDefaultErr).getD false = false) ∧
    ((load fs env dest opts).err = none ∨
      (∃ m, (load fs env dest opts).err = some (.fileLoad m)) ∨
      (load fs env dest opts).err = some .shape ∨
      (∃ fl, (load fs env dest opts).err = some (.decode fl)) ∨
      (∃ sn fl, (load fs env dest opts).err = some (.validation sn fl))) := by
  cases hfs : fileStep (applyOptions opts) fs env with
  | error msg =>
    rw [load_file_error fs env dest opts msg hfs]
    simp [isDefaultErr]
  | ok env1 =>
    cases dest with
    | goNil =>
      rw [load_shape_goNil fs env env1 opts hfs]
      simp [isDefaultErr]
    | nonPtr v =>
      rw [load_shape_nonPtr fs env env1 v opts hfs]
      simp [isDefaultErr]
    | ptr s v =>
      rcases hd : decodeFields (applyOptions opts).pref env1 (s.fields.zip v) with ⟨v1, fl⟩
      cases fl with
      | cons x xs =>
        rw [load_decode_fail fs env env1 s v v1 opts x xs hfs hd]
        simp [isDefaultErr]
      | nil =>
        cases hv : (applyOptions opts).skipValid with
        | true =>
          rw [load_skip_valid fs env env1 s v v1 opts hfs hd hv]
          simp [isDefaultErr]
        | false =>
          cases h3 : validationFailures s (setDefaults s v1) with
          | nil =>
            rw [load_valid_ok fs env env1 s v v1 opts hfs hd hv h3]
            simp [isDefaultErr]
          | cons n ns =>
            rw [load_valid_fail fs env env1 s v v1 opts n ns hfs hd hv h3]
            simp [isDefaultErr]

/-- C8 counterexample: there is no `Load` call whose returned error is a
`DefaultError` — the claimed error-return path attributable to the
default injector does not exist in the code. -/
theorem C8_counterexample :
    (∃ (fs : EnvFile) (env : Env) (dest : Dest) (opts : List ConfigOption) (msg : String),
        (load fs env dest opts).err = some (.defaultErr msg)) = False := by
  apply eq_false
  rintro ⟨fs, env, dest, opts, msg, h⟩
  have h1 := (load_err_kinds fs env dest opts).1
  rw [h] at h1
  simp [isDefaultErr] at h1

/-- C8 amended: the default-injection step has no failure mode at all —
`defaults.SetDefaults` returns no error, so `Load` never returns a
`DefaultError`; every returned error comes from the file-load, decode
(including shape) or validation step. -/
theorem C8_no_default_error (fs : EnvFile) (env : Env) (dest : Dest)
    (opts : List ConfigOption) :
    (((load fs env dest opts).err.map isDefaultErr).getD false = false) ∧
    ((load fs env dest opts).err = none ∨
      (∃ m, (load fs env dest opts).err = some (.fileLoad m)) ∨
      (load fs env dest opts).err = some .shape ∨
      (∃ fl, (load fs env dest opts).err = some (.decode fl)) ∨
      (∃ sn fl, (load fs env dest opts).err = some (.validation sn fl))) :=
  load_err_kinds fs env dest opts

/-! ### C9 — side effects and partially populated destinations -/

/-- C9 counterexample: with no `.env` file, no environment variables and
validation not skipped, `Load` returns an error (the file loader's, not
the validator's) while the destination's `Port` holds `0` — not `8080`:
the pipeline aborted before default injection. -/
theorem C9_counterexample :
    ((load .absent [] (.ptr TestConfig (zeroStruct TestConfig)) []).err).isSome = true ∧
    (load .absent [] (.ptr TestConfig (zeroStruct TestConfig)) []).dest
        = .ptr TestConfig [.vstr "", .vint 0, .vbool false, .vstr ""] :=
  ⟨rfl, rfl⟩

/-- C9 amended: once the file step and decoding succeed, the destination
keeps the decoder's and default injector's mutations and the environment
keeps the file step's injections whatever the validator then decides; a
later validation failure still leaves the decoded-and-defaulted values in
place (so with `SkipEnvFile()`, `Host` required and `Port` defaulting to
`"8080"`, the failing load leaves `Port == 8080`); when the env-file step
is not skipped and the file is absent, `Load` aborts earlier and the
destination keeps its prior values. -/
theorem C9_frame_mutations (fs : EnvFile) (env env1 : Env) (s : StructType)
    (v v1 : List GoValue) (opts : List ConfigOption) (n : String) (ns : List String)
    (h1 : fileStep (applyOptions opts) fs env = .ok env1)
    (h2 : decodeFields (applyOptions opts).pref env1 (s.fields.zip v) = (v1, [])) :
    (load fs env (.ptr s v) opts).dest = .ptr s (setDefaults s v1) ∧
    (load fs env (.ptr s v) opts).env = env1 ∧
    ((applyOptions opts).skipValid = false →
      validationFailures s (setDefaults s v1) = n :: ns →
      (load fs env (.ptr s v) opts).err = some (.validation s.name (n :: ns))) := by
  have hframe := load_decode_ok_frame fs env env1 s v v1 opts h1 h2
  refine ⟨hframe.1, hframe.2, ?_⟩
  intro hsv h3
  rw [load_valid_fail fs env env1 s v v1 opts n ns h1 h2 hsv h3]

/-- C9 witness: the `SkipEnvFile()` scenario of the repository's "basic
configuration with defaults" test — the load fails on `Host` validation
while `Port` already holds the injected default `8080`. -/
theorem C9_witness :
    (load .absent [] (.ptr TestConfig (zeroStruct TestConfig)) [.skipEnvFile]).dest
        = .ptr TestConfig [.vstr "", .vint 8080, .vbool false, .vstr ""] ∧
    (load .absent [] (.ptr TestConfig (zeroStruct TestConfig)) [.skipEnvFile]).err
        = some (.validation "TestConfig" ["Host"]) := by
  have h := C9_frame_mutations .absent [] [] TestConfig (zeroStruct TestConfig)
    (zeroStruct TestConfig) [.skipEnvFile] "Host" [] rfl rfl
  exact ⟨h.1.trans (by decide), h.2.2 rfl rfl⟩

/-! ### The logging pretty handler (`logging/logger.go`) -/

/-- A Go value carried by a slog attribute, as `Handle` inspects it: an
error (with its `Error()` message), a string, or anything else (with its
`fmt.Sprint` rendering and whether `encoding/json` can marshal it). -/
inductive GoAny where
  | goErr (msg : String)
  | goStr (s : String)
  | goOther (rendered : String) (marshalable : Bool)
  deriving DecidableEq, Repr

/-- `fmt.Sprint` of a carried value (an error prints its message). -/
def sprint : GoAny → String
  | .goErr m => m
  | .goStr s => s
  | .goOther r _ => r

/-- One slog attribute as `r.Attrs` yields it. -/
structure SlogAttr where
  key : String
  val : GoAny
  deriving DecidableEq, Repr

/-- What `Handle` stores in its `fields` map: the rewritten string for an
`error`-keyed attribute, or the attribute's underlying value. -/
inductive FieldEntry where
  | asStr (s : String)
  | asAny (v : GoAny)
  deriving DecidableEq, Repr

/-- The `switch` in `Handle` for a key `"error"` attribute: an error
value stores `v.Error()`, a string is stored unchanged, anything else is
stored via `fmt.Sprint(v)`. -/
def errAttrString : GoAny → String
  | .goErr m => m
  | .goStr s => s
  | v => sprint v

/-- Go map insertion: the new binding replaces any previous one. -/
def mapSet (m : List (String × FieldEntry)) (k : String) (e : FieldEntry) :
    List (String × FieldEntry) :=
  (k, e) :: m.filter (fun p => decide (p.1 ≠ k))

/-- Go map lookup. -/
def fieldsGet (m : List (String × FieldEntry)) (k : String) : Option FieldEntry :=
  (m.find? (fun p => decide (p.1 = k))).map (fun p => p.2)

/-- One iteration of the `r.Attrs` callback in `Handle`. -/
def handleStep (m : List (String × FieldEntry)) (a : SlogAttr) :
    List (String × FieldEntry) :=
  if a.key = "error" then mapSet m a.key (.asStr (errAttrString a.val))
  else mapSet m a.key (.asAny a.val)

/-- The `fields` map `Handle` builds from the record's attributes. -/
def handleFields (attrs : List SlogAttr) : List (String × FieldEntry) :=
  attrs.foldl handleStep []

/-- Whether `json.MarshalIndent` accepts one stored value. -/
def entryMarshalable : FieldEntry → Bool
  | .asStr _ => true
  | .asAny (.goOther _ b) => b
  | .asAny _ => true

/-- Whether `json.MarshalIndent` accepts the whole fields map. -/
def fieldsMarshalable (m : List (String × FieldEntry)) : Bool :=
  m.all (fun p => entryMarshalable p.2)

/-- `Handle`'s returned error: `json.MarshalIndent`'s error when some
value in the fields map is unmarshalable, else `nil` (the printed console
line is a side effect the result does not carry). -/
def prettyHandle (attrs : List SlogAttr) : Option String :=
  if fieldsMarshalable (handleFields attrs) then none
  else some "json: unsupported type"

/-- The last attribute of a record with a given key (in a Go map, later
insertions win). -/
def findLastAttr (attrs : List SlogAttr) (k : String) : Option SlogAttr :=
  attrs.reverse.find? (fun a => decide (a.key = k))

theorem fieldsGet_mapSet_same (m : List (String × FieldEntry)) (k : String)
    (e : FieldEntry) : fieldsGet (mapSet m k e) k = some e := by
  simp [fieldsGet, mapSet, List.find?_cons]

theorem find?_filter_ne (k k' : String) (h : k' ≠ k) :
    ∀ m : List (String × FieldEntry),
      (m.filter (fun p => decide (p.1 ≠ k))).find? (fun p => decide (p.1 = k'))
        = m.find? (fun p => decide (p.1 = k')) := by
  intro m
  rw [List.find?_filter]
  congr 1
  funext a
  by_cases ha : a.1 = k'
  · have hk : ¬ (a.1 = k) := fun he => h (ha.symm.trans he)
    simp [ha, hk, h]
  · simp [ha]

theorem fieldsGet_mapSet_other (m : List (String × FieldEntry)) (k k' : String)
    (e : FieldEntry) (h : k' ≠ k) : fieldsGet (mapSet m k e) k' = fieldsGet m k' := by
  have hf : (decide ((k : String) = k')) = false := decide_eq_false (fun he => h he.symm)
  simp only [fieldsGet, mapSet, List.find?_cons, hf]
  rw [find?_filter_ne k k' h m]

/-- Lookup in the map `Handle` builds: the last attribute with the key
wins, rewritten by the `"error"` switch when the key is `"error"`. -/
theorem handleFields_get (k : String) :
    ∀ (attrs : List SlogAttr) (m : List (String × FieldEntry)),
      fieldsGet (attrs.foldl handleStep m) k
        = match findLastAttr attrs k with
          | some a => some (if a.key = "error" then FieldEntry.asStr (errAttrString a.val)
                            else FieldEntry.asAny a.val)
          | none => fieldsGet m k := by
  intro attrs
  induction attrs with
  | nil => intro m; rfl
  | cons a rest ih =>
    intro m
    rw [List.foldl_cons, ih (handleStep m a)]
    have hfl : findLastAttr (a :: rest) k
        = (findLastAttr rest k).or (if decide (a.key = k) = true then some a else none) := by
      unfold findLastAttr
      rw [List.reverse_cons, List.find?_append]
      cases hak : decide (a.key = k) <;> simp [List.find?_cons, hak]
    rw [hfl]
    cases hrest : findLastAttr rest k with
    | some b => rfl
    | none =>
      by_cases hak : a.key = k
      · subst hak
        simp only [decide_eq_true_eq, Option.none_or, if_pos rfl]
        by_cases he : a.key = "error" <;>
          simp [handleStep, he, fieldsGet_mapSet_same]
      · have hthis : fieldsGet (handleStep m a) k = fieldsGet m k := by
          unfold handleStep
          by_cases he : a.key = "error"
          · rw [if_pos he]
            exact fieldsGet_mapSet_other m a.key k _ (fun hh => hak hh.symm)
          · rw [if_neg he]
            exact fieldsGet_mapSet_other m a.key k _ (fun hh => hak hh.symm)
        simp [hak, hthis]

/-- C10: `Handle`'s fields map stores an `"error"`-keyed attribute as a
string — an error value's message, a string unchanged, anything else its
`fmt.Sprint` rendering (always the last such attribute); any other key
stores the last attribute's underlying value; and `Handle` returns `nil`
whenever the resulting fields map is JSON-marshalable. -/
theorem C10_pretty_handle (attrs : List SlogAttr) (k : String) (hk : k ≠ "error") :
    fieldsGet (handleFields attrs) "error"
        = (findLastAttr attrs "error").map (fun a => FieldEntry.asStr (errAttrString a.val)) ∧
    fieldsGet (handleFields attrs) k
        = (findLastAttr attrs k).map (fun a => FieldEntry.asAny a.val) ∧
    (∀ m, errAttrString (.goErr m) = m) ∧
    (∀ s, errAttrString (.goStr s) = s) ∧
    (∀ r b, errAttrString (.goOther r b) = sprint (.goOther r b)) ∧
    (fieldsMarshalable (handleFields attrs) = true → prettyHandle attrs = none) := by
  refine ⟨?_, ?_, fun m => rfl, fun s => rfl, fun r b => rfl, ?_⟩
  · rw [handleFields, handleFields_get "error" attrs []]
    cases hf : findLastAttr attrs "error" with
    | none => rfl
    | some a =>
      have ha : a.key = "error" := by
        have hp := List.find?_some (by
          rw [show attrs.reverse.find? (fun a => decide (a.key = "error"))
              = findLastAttr attrs "error" from rfl, hf])
        exact of_decide_eq_true hp
      simp [ha]
  · rw [handleFields, handleFields_get k attrs []]
    cases hf : findLastAttr attrs k with
    | none => rfl
    | some a =>
      have ha : a.key = k := by
        have hp := List.find?_some (by
          rw [show attrs.reverse.find? (fun a => decide (a.key = k))
              = findLastAttr attrs k from rfl, hf])
        exact of_decide_eq_true hp
      have hne : ¬ (a.key = "error") := ha ▸ hk
      simp [hne]
  · intro h
    simp [prettyHandle, h]

/-- C10 witness: a record carrying an error-valued `"error"` attribute, a
string-valued `"level"` attribute and a later string-valued `"error"`
attribute: the last `"error"` write wins and is stored as a string, the
`"level"` attribute keeps its underlying value, and `Handle` returns
`nil` when the map marshals. -/
theorem C10_witness :
    fieldsGet (handleFields [⟨"error", .goErr "boom"⟩, ⟨"level", .goStr "info"⟩,
        ⟨"error", .goStr "denied"⟩]) "error"
        = (findLastAttr [⟨"error", .goErr "boom"⟩, ⟨"level", .goStr "info"⟩,
            ⟨"error", .goStr "denied"⟩] "error").map
          (fun a => FieldEntry.asStr (errAttrString a.val)) ∧
    fieldsGet (handleFields [⟨"error", .goErr "boom"⟩, ⟨"level", .goStr "info"⟩,
        ⟨"error", .goStr "denied"⟩]) "level"
        = (findLastAttr [⟨"error", .goErr "boom"⟩, ⟨"level", .goStr "info"⟩,
            ⟨"error", .goStr "denied"⟩] "level").map
          (fun a => FieldEntry.asAny a.val) ∧
    (∀ m, errAttrString (.goErr m) = m) ∧
    (∀ s, errAttrString (.goStr s) = s) ∧
    (∀ r b, errAttrString (.goOther r b) = sprint (.goOther r b)) ∧
    (fieldsMarshalable (handleFields [⟨"error", .goErr "boom"⟩, ⟨"level", .goStr "info"⟩,
        ⟨"error", .goStr "denied"⟩]) = true →
      prettyHandle [⟨"error", .goErr "boom"⟩, ⟨"level", .goStr "info"⟩,
        ⟨"error", .goStr "denied"⟩] = none) :=
  C10_pretty_handle
    [⟨"error", .goErr "boom"⟩, ⟨"level", .goStr "info"⟩, ⟨"error", .goStr "denied"⟩]
    "level" (by decide)

end X
